import Mathlib

/-!
# Fast-Stacker: the configuration header `stacker.h`

A shallow embedding of the constants, lookup tables and the EEPROM address map
declared in `src/stacker.h`, together with the properties the specification
states about them.

Conventions of the embedding:

* the value of a C `float` is a rational (`ℚ`). The constants `MM_PER_ROTATION`
  ... `ACCEL_SMALL` and the tables are read over exact rational arithmetic;
  where the rounding of the machine arithmetic decides the result, as for
  `BACKLASH`, the operations are the binary32 ones (`round32`, `f32_div`,
  `f32_mul`) and the constants carry the suffix `_f32`;
* a C `short` / `int` (both 16 bit on the AVR target) is an `Int`, a result
  that is stored in a `short` passes through `wrap16`;
* a C array is a `List`, indexed from 0.
-/

namespace Stacker

/-! ## Machine integers -/

/-- Twos-complement reduction of an integer to the 16-bit signed range. -/
def wrap16 (x : Int) : Int := (x + 32768) % 65536 - 32768

/-- The C conversion of a `float` to an integer type: the fractional part is
discarded (truncation toward zero). -/
def truncate (q : ℚ) : Int := if 0 ≤ q then ⌊q⌋ else ⌈q⌉

/-- The cast `(short)x` of a `float`: truncation, stored in 16 bits. -/
def to_short (q : ℚ) : Int := wrap16 (truncate q)

/-! ## Single precision arithmetic (IEEE 754 binary32, round to nearest even) -/

/-- Rounding of a rational to the nearest integer, a tie going to the even
neighbour. -/
def round_half_even (y : ℚ) : Int :=
  if y - ⌊y⌋ < 1 / 2 then ⌊y⌋
  else if 1 / 2 < y - ⌊y⌋ then ⌊y⌋ + 1
  else if ⌊y⌋ % 2 = 0 then ⌊y⌋ else ⌊y⌋ + 1

/-- Binary exponent of a binary32 value near `x`: the `e` with
`2^e ≤ |x| < 2^(e+1)`, but not below -126, the exponent of the smallest normal
number (subnormal numbers share it). -/
def f32_exponent (x : ℚ) : Int := max (Int.log 2 |x|) (-126)

/-- Spacing of the binary32 numbers around `x`: 24 significant bits. -/
def f32_ulp (x : ℚ) : ℚ := (2 : ℚ) ^ (f32_exponent x - 23)

/-- The binary32 number nearest to `x`, ties to even: the value a `float`
holds after `x` is stored in it. The exponent is not bounded from above (no
overflow to infinity); every value the header computes is far below `2^128`. -/
def round32 (x : ℚ) : ℚ := (round_half_even (x / f32_ulp x) : ℚ) * f32_ulp x

/-- The `float` division `a / b`. -/
def f32_div (a b : ℚ) : ℚ := round32 (a / b)

/-- The `float` multiplication `a * b`. -/
def f32_mul (a b : ℚ) : ℚ := round32 (a * b)

/-! ## Hardware related parameters (`stacker.h`, lines 125-161) -/

/-- Number of full steps per rotation for the stepper motor. -/
def MOTOR_STEPS : Int := 200

/-- Number of microsteps in a step. -/
def N_MICROSTEPS : Int := 8

/-- Travel distance per one rotation, in mm. -/
def MM_PER_ROTATION : ℚ := 3.98

/-- Backlash compensation, in mm. -/
def BACKLASH_MM : ℚ := 0.2

/-- Speed limiter, in mm/s. -/
def SPEED_LIMIT_MM_S : ℚ := 5

/-- Breaking distance (mm) when stopping from the fastest speed. -/
def BREAKING_DISTANCE_MM : ℚ := 2.0

/-- Rewind / fast-forward acceleration factor. -/
def ACCEL_FACTOR : ℚ := 3.0

/-! ## Derived constants (`stacker.h`, lines 202-224) -/

/-- MM per microstep. -/
def MM_PER_MICROSTEP : ℚ := MM_PER_ROTATION / ((MOTOR_STEPS : ℚ) * (N_MICROSTEPS : ℚ))

/-- Number of microsteps per rotation (a `short`). -/
def MICROSTEPS_PER_ROTATION : Int := wrap16 (MOTOR_STEPS * N_MICROSTEPS)

/-- Breaking distance in internal units (microsteps). -/
def BREAKING_DISTANCE : ℚ :=
  (MICROSTEPS_PER_ROTATION : ℚ) * BREAKING_DISTANCE_MM / (1.0 * MM_PER_ROTATION)

/-- Conversion factor from mm/s to microsteps per microsecond. -/
def SPEED_SCALE : ℚ := (MICROSTEPS_PER_ROTATION : ℚ) / (1.0e6 * MM_PER_ROTATION)

/-- Speed limit in internal units (microsteps per microsecond). -/
def SPEED_LIMIT : ℚ := SPEED_SCALE * SPEED_LIMIT_MM_S

/-- Maximum acceleration / deceleration, in microsteps per microsecond squared. -/
def ACCEL_LIMIT : ℚ := SPEED_LIMIT * SPEED_LIMIT / (2.0 * BREAKING_DISTANCE)

/-- Acceleration used only during rewind or fast-forward. -/
def ACCEL_SMALL : ℚ := ACCEL_LIMIT / ACCEL_FACTOR

/-- The `float` constant `MM_PER_ROTATION` as stored: the literal 3.98 rounded to
binary32. -/
def MM_PER_ROTATION_f32 : ℚ := round32 MM_PER_ROTATION

/-- The `float` constant `MM_PER_MICROSTEP` as the machine computes it:
`MM_PER_ROTATION / ((float)MOTOR_STEPS * (float)N_MICROSTEPS)` in binary32. -/
def MM_PER_MICROSTEP_f32 : ℚ :=
  f32_div MM_PER_ROTATION_f32
    (f32_mul (round32 (MOTOR_STEPS : ℚ)) (round32 (N_MICROSTEPS : ℚ)))

/-- Backlash in microsteps for a given backlash distance in mm:
`(short)(BACKLASH_MM / MM_PER_MICROSTEP)`, the literal `backlash_mm` stored in a
`float` (rounded once: on the AVR target `double` is binary32 as well) and the
division done in binary32. -/
def BACKLASH_of (backlash_mm : ℚ) : Int :=
  to_short (f32_div (round32 backlash_mm) MM_PER_MICROSTEP_f32)

/-- Backlash in microsteps, for the configured `BACKLASH_MM`. -/
def BACKLASH : Int := BACKLASH_of BACKLASH_MM

/-- Five possible values for the acceleration (`global::accel_v`). -/
def accel_v : List ℚ := [-ACCEL_LIMIT, -ACCEL_SMALL, 0.0, ACCEL_SMALL, ACCEL_LIMIT]

/-- The acceleration the specification assigns to a level (data model,
`accel_level`): -2, -1, 0, 1, 2 map to -ACCEL_LIMIT, -ACCEL_SMALL, 0,
ACCEL_SMALL, ACCEL_LIMIT. -/
def spec_accel_level (l : Int) : ℚ :=
  if l = -2 then -ACCEL_LIMIT
  else if l = -1 then -ACCEL_SMALL
  else if l = 0 then 0
  else if l = 1 then ACCEL_SMALL
  else ACCEL_LIMIT

/-! ## Input parameter tables (`stacker.h`, lines 182-200) -/

/-- Number of values for the input parameters. -/
def N_PARAMS : Int := 25

/-- Mm per frame parameter. -/
def MM_PER_FRAME : List ℚ :=
  [0.005, 0.006, 0.008, 0.01, 0.015, 0.02, 0.025, 0.03, 0.04, 0.05, 0.06, 0.08, 0.1,
   0.15, 0.2, 0.25, 0.3, 0.4, 0.5, 0.6, 0.8, 1, 1.5, 2, 2.5]

/-- Frame per second parameter. -/
def FPS : List ℚ :=
  [0.01, 0.02, 0.03, 0.04, 0.05, 0.06, 0.08, 0.1, 0.15, 0.2, 0.25, 0.3, 0.35, 0.4,
   0.5, 0.6, 0.8, 1, 1.2, 1.5, 2, 2.5, 3, 3.5, 4]

/-- Number of shots parameter. -/
def N_SHOTS : List Int :=
  [2, 3, 4, 5, 6, 8, 10, 12, 15, 20, 25, 30, 40, 50, 75, 100, 125, 150, 175, 200,
   250, 300, 400, 500, 600]

/-- The length of the first delay table. -/
def N_FIRST_DELAY : Int := 5

/-- First delay in non-continuous stacking, in seconds. -/
def FIRST_DELAY : List ℚ := [0.1, 0.3, 1, 3, 10]

/-- The length of the second delay table. -/
def N_SECOND_DELAY : Int := 5

/-- Second delay in non-continuous stacking, in seconds. -/
def SECOND_DELAY : List ℚ := [0.1, 0.3, 1, 3, 10]

/-! ## EEPROM address map (`stacker.h`, lines 226-255) -/

/-- The C types of the values kept in EEPROM. -/
inductive CType where
  | float
  | byte
  | short
  | regist
  deriving DecidableEq, Repr

/-- Size in bytes of a `short` on the 8-bit AVR target. -/
def sizeof_short : Int := 2

/-- The members of `struct regist`, all of type `short`. -/
inductive RegistMember where
  | i_n_shots
  | i_mm_per_frame
  | i_fps
  | i_first_delay
  | i_second_delay
  | point1
  | point2
  deriving DecidableEq, Repr

/-- The members of `struct regist` in declaration order. -/
def regist_members : List RegistMember :=
  [.i_n_shots, .i_mm_per_frame, .i_fps, .i_first_delay, .i_second_delay, .point1, .point2]

/-- The value of `short SIZE_REG = sizeof(regist)`: seven members of type
`short`, no padding. -/
def SIZE_REG : Int := wrap16 ((regist_members.length : Int) * sizeof_short)

/-- Size in bytes of a stored value. -/
def sizeof : CType → Int
  | .float => 4
  | .byte => 1
  | .short => sizeof_short
  | .regist => SIZE_REG

/-- EEPROM addresses, each defined from the previous one as in the header;
`ADDR_POS` is the current position. -/
def ADDR_POS : Int := 0
def ADDR_CALIBRATE : Int := ADDR_POS + 4
def ADDR_LIMIT1 : Int := ADDR_CALIBRATE + 2
def ADDR_LIMIT2 : Int := ADDR_LIMIT1 + 2
def ADDR_I_N_SHOTS : Int := ADDR_LIMIT2 + 2
def ADDR_I_MM_PER_FRAME : Int := ADDR_I_N_SHOTS + 2
def ADDR_I_FPS : Int := ADDR_I_MM_PER_FRAME + 2
def ADDR_POINT1 : Int := ADDR_I_FPS + 2
def ADDR_POINT2 : Int := ADDR_POINT1 + 2
def ADDR_POINTS_BYTE : Int := ADDR_POINT2 + 2
def ADDR_BACKLIGHT : Int := ADDR_POINTS_BYTE + 2
def ADDR_REG1 : Int := ADDR_BACKLIGHT + 2
def ADDR_REG2 : Int := ADDR_REG1 + SIZE_REG
def ADDR_I_FIRST_DELAY : Int := ADDR_REG2 + SIZE_REG
def ADDR_I_SECOND_DELAY : Int := ADDR_I_FIRST_DELAY + 2

/-- The persisted fields: one per `ADDR_` constant of the header. -/
inductive Field where
  | pos
  | calibrate
  | limit1
  | limit2
  | i_n_shots
  | i_mm_per_frame
  | i_fps
  | point1
  | point2
  | points_byte
  | backlight
  | reg1
  | reg2
  | i_first_delay
  | i_second_delay
  deriving DecidableEq, Repr

namespace Field

/-- Base address of a persisted field. -/
def addr : Field → Int
  | pos => ADDR_POS
  | calibrate => ADDR_CALIBRATE
  | limit1 => ADDR_LIMIT1
  | limit2 => ADDR_LIMIT2
  | i_n_shots => ADDR_I_N_SHOTS
  | i_mm_per_frame => ADDR_I_MM_PER_FRAME
  | i_fps => ADDR_I_FPS
  | point1 => ADDR_POINT1
  | point2 => ADDR_POINT2
  | points_byte => ADDR_POINTS_BYTE
  | backlight => ADDR_BACKLIGHT
  | reg1 => ADDR_REG1
  | reg2 => ADDR_REG2
  | i_first_delay => ADDR_I_FIRST_DELAY
  | i_second_delay => ADDR_I_SECOND_DELAY

/-- Type of the value stored at a field: the position is a `float`, the
calibration flag an `unsigned char`, `points_byte` a `byte`, the presets are
`struct regist`, everything else is a `short`. -/
def stored_type : Field → CType
  | pos => .float
  | calibrate => .byte
  | points_byte => .byte
  | reg1 => .regist
  | reg2 => .regist
  | _ => .short

/-- Number of bytes a field occupies. -/
def size (f : Field) : Int := sizeof f.stored_type

/-- One past the last byte of a field. -/
def stop (f : Field) : Int := f.addr + f.size

/-- Two fields occupy byte ranges with no byte in common. -/
def disjoint (f g : Field) : Prop := f.stop ≤ g.addr ∨ g.stop ≤ f.addr

instance (f g : Field) : Decidable (disjoint f g) := by
  unfold disjoint; exact inferInstance

end Field

/-- The persisted fields in the order the header declares their addresses. -/
def eeprom_fields : List Field :=
  [.pos, .calibrate, .limit1, .limit2, .i_n_shots, .i_mm_per_frame, .i_fps, .point1,
   .point2, .points_byte, .backlight, .reg1, .reg2, .i_first_delay, .i_second_delay]

/-- The part of `struct global` the backlash compensator works on: the slack
counter `BL_counter`, the program coordinate `pos` (in whole microsteps), the
flags `moving` and `backlashing`, and the physical coordinate of the rail
`phys` of the backlash model described in the header. -/
structure BLState where
  BL_counter : Int
  pos : Int
  phys : Int
  moving : Bool
  backlashing : Bool
  deriving DecidableEq, Repr

/-- Modelled from the spec: one microstep passed through the backlash
compensator of section 4.2, whose code is not in `stacker.h` (the header only
declares `BACKLASH`, `BL_counter` and `backlashing`). `forward = true` is a step
in the good (positive) direction. A step in the bad direction is first applied
to the slack counter, incrementing it toward `backlash` without advancing the
physical position; once the counter has reached `backlash` further steps in that
direction move the rail. A step in the good direction decrements a non-zero
counter, and moves the rail when the counter is zero. With `backlash = 0` the
compensator is a pass-through. -/
def bl_step (backlash : Int) (s : BLState) (forward : Bool) : BLState :=
  if backlash = 0 then
    if forward then { s with pos := s.pos + 1, phys := s.phys + 1 }
    else { s with pos := s.pos - 1, phys := s.phys - 1 }
  else if forward then
    if 0 < s.BL_counter then { s with pos := s.pos + 1, BL_counter := s.BL_counter - 1 }
    else { s with pos := s.pos + 1, phys := s.phys + 1 }
  else
    if s.BL_counter < backlash then
      { s with pos := s.pos - 1, BL_counter := s.BL_counter + 1 }
    else { s with pos := s.pos - 1, phys := s.phys - 1 }

/-- Modelled from the spec: one control tick of the backlash compensator of
section 4.2, whose code is not in `stacker.h`. `cmd = some d` is a microstep
decision of the motion profile controller, `cmd = none` means the controller
has finished its motion. The compensator defers motion completion: while slack
is outstanding it holds the moving state and takes up one microstep of slack in
the good direction; the rail is at rest (`moving = false`) only once no slack
is left. -/
def bl_tick (backlash : Int) (s : BLState) (cmd : Option Bool) : BLState :=
  match cmd with
  | some d => bl_step backlash { s with moving := true } d
  | none =>
    if 0 < s.BL_counter then
      bl_step backlash { s with moving := true, backlashing := true } true
    else { s with moving := false, backlashing := false }

/-- Run of the compensator over a sequence of control ticks. -/
def bl_run (backlash : Int) (s : BLState) (cmds : List (Option Bool)) : BLState :=
  cmds.foldl (bl_tick backlash) s

/-- The rail at rest at coordinate `p`, with no slack. -/
def bl_init (p : Int) : BLState :=
  { BL_counter := 0, pos := p, phys := p, moving := false, backlashing := false }

/-- The invariant of the backlash compensator: the slack counter is within
`0..backlash`, the physical coordinate is ahead of the program coordinate by
exactly the outstanding slack, and a rail at rest has no outstanding slack. -/
def BLInv (backlash : Int) (s : BLState) : Prop :=
  0 ≤ s.BL_counter ∧ s.BL_counter ≤ backlash ∧ s.phys = s.pos + s.BL_counter ∧
    (s.moving = false → s.BL_counter = 0)

/-! ## Values of the constants -/

theorem MICROSTEPS_PER_ROTATION_val : MICROSTEPS_PER_ROTATION = 1600 := by decide

theorem MM_PER_MICROSTEP_val : MM_PER_MICROSTEP = 199 / 80000 := by
  norm_num [MM_PER_MICROSTEP, MM_PER_ROTATION, MOTOR_STEPS, N_MICROSTEPS]

theorem BREAKING_DISTANCE_val : BREAKING_DISTANCE = 160000 / 199 := by
  norm_num [BREAKING_DISTANCE, MICROSTEPS_PER_ROTATION_val, BREAKING_DISTANCE_MM,
    MM_PER_ROTATION]

theorem SPEED_SCALE_val : SPEED_SCALE = 2 / 4975 := by
  norm_num [SPEED_SCALE, MICROSTEPS_PER_ROTATION_val, MM_PER_ROTATION]

theorem SPEED_LIMIT_val : SPEED_LIMIT = 2 / 995 := by
  norm_num [SPEED_LIMIT, SPEED_SCALE_val, SPEED_LIMIT_MM_S]

theorem ACCEL_LIMIT_val : ACCEL_LIMIT = 1 / 398000000 := by
  norm_num [ACCEL_LIMIT, SPEED_LIMIT_val, BREAKING_DISTANCE_val]

theorem ACCEL_SMALL_val : ACCEL_SMALL = 1 / 1194000000 := by
  norm_num [ACCEL_SMALL, ACCEL_LIMIT_val, ACCEL_FACTOR]

/-! ## Acceleration table -/

/-- C1: every acceleration level `l` in -2..2 selects, at index `l + 2` of
`accel_v`, the value the specification assigns to that level; the table is
antisymmetric about level 0 and no entry exceeds `ACCEL_LIMIT` in magnitude,
where `ACCEL_SMALL = ACCEL_LIMIT / ACCEL_FACTOR` and `ACCEL_FACTOR = 3`. -/
theorem accel_v_levels (l : Int) (hlo : -2 ≤ l) (hhi : l ≤ 2) :
    ∃ a b : ℚ, accel_v[(l + 2).toNat]? = some a ∧ accel_v[(-l + 2).toNat]? = some b ∧
      a = spec_accel_level l ∧ b = -a ∧ |a| ≤ ACCEL_LIMIT ∧
      ACCEL_SMALL = ACCEL_LIMIT / ACCEL_FACTOR ∧ ACCEL_FACTOR = 3 := by
  have hF : ACCEL_FACTOR = 3 := by norm_num [ACCEL_FACTOR]
  have hL : (0 : ℚ) ≤ ACCEL_LIMIT := by rw [ACCEL_LIMIT_val]; norm_num
  have hS : (0 : ℚ) ≤ ACCEL_SMALL := by rw [ACCEL_SMALL_val]; norm_num
  have hSL : ACCEL_SMALL ≤ ACCEL_LIMIT := by
    rw [ACCEL_SMALL_val, ACCEL_LIMIT_val]; norm_num
  have hcases : l = -2 ∨ l = -1 ∨ l = 0 ∨ l = 1 ∨ l = 2 := by omega
  rcases hcases with h | h | h | h | h <;> subst h
  · exact ⟨-ACCEL_LIMIT, ACCEL_LIMIT, rfl, rfl, by simp [spec_accel_level], by simp,
      by rw [abs_neg, abs_of_nonneg hL], rfl, hF⟩
  · exact ⟨-ACCEL_SMALL, ACCEL_SMALL, rfl, rfl, by simp [spec_accel_level], by simp,
      by rw [abs_neg, abs_of_nonneg hS]; exact hSL, rfl, hF⟩
  · exact ⟨0.0, 0.0, rfl, rfl, by norm_num [spec_accel_level], by norm_num,
      by norm_num; exact hL, rfl, hF⟩
  · exact ⟨ACCEL_SMALL, -ACCEL_SMALL, rfl, rfl, by simp [spec_accel_level], rfl,
      by rw [abs_of_nonneg hS]; exact hSL, rfl, hF⟩
  · exact ⟨ACCEL_LIMIT, -ACCEL_LIMIT, rfl, rfl, by simp [spec_accel_level], rfl,
      by rw [abs_of_nonneg hL], rfl, hF⟩

/-- Witness for C1 at level 1 (the small forward acceleration). -/
theorem accel_v_levels_witness :
    (-2 : Int) ≤ 1 ∧ (1 : Int) ≤ 2 ∧
    ∃ a b : ℚ, accel_v[((1 : Int) + 2).toNat]? = some a ∧
      accel_v[(-(1 : Int) + 2).toNat]? = some b ∧
      a = spec_accel_level 1 ∧ b = -a ∧ |a| ≤ ACCEL_LIMIT ∧
      ACCEL_SMALL = ACCEL_LIMIT / ACCEL_FACTOR ∧ ACCEL_FACTOR = 3 :=
  ⟨by decide, by decide, accel_v_levels 1 (by decide) (by decide)⟩

/-! ## Breaking distance and the acceleration limit -/

/-- C2: decelerating at `ACCEL_LIMIT` from `SPEED_LIMIT` stops the rail over
exactly `BREAKING_DISTANCE` microsteps, and from any speed `v` with
`|v| ≤ SPEED_LIMIT` the stopping distance `v^2 / (2 * ACCEL_LIMIT)` is at most
`BREAKING_DISTANCE`. -/
theorem stopping_distance_le_breaking_distance (v : ℚ) (hv : |v| ≤ SPEED_LIMIT) :
    SPEED_LIMIT ^ 2 / (2 * ACCEL_LIMIT) = BREAKING_DISTANCE ∧
      v ^ 2 / (2 * ACCEL_LIMIT) ≤ BREAKING_DISTANCE := by
  have hA : (0 : ℚ) < 2 * ACCEL_LIMIT := by rw [ACCEL_LIMIT_val]; norm_num
  have hmax : SPEED_LIMIT ^ 2 / (2 * ACCEL_LIMIT) = BREAKING_DISTANCE := by
    rw [SPEED_LIMIT_val, ACCEL_LIMIT_val, BREAKING_DISTANCE_val]; norm_num
  refine ⟨hmax, ?_⟩
  rw [← hmax]
  have hsq : v ^ 2 ≤ SPEED_LIMIT ^ 2 := by
    have h := abs_le.mp hv
    nlinarith [h.1, h.2]
  exact div_le_div_of_nonneg_right hsq hA.le

/-- Witness for C2 at the reverse maximum speed `v = -SPEED_LIMIT`. -/
theorem stopping_distance_le_breaking_distance_witness :
    |(-SPEED_LIMIT)| ≤ SPEED_LIMIT ∧
    SPEED_LIMIT ^ 2 / (2 * ACCEL_LIMIT) = BREAKING_DISTANCE ∧
      (-SPEED_LIMIT) ^ 2 / (2 * ACCEL_LIMIT) ≤ BREAKING_DISTANCE :=
  ⟨by rw [SPEED_LIMIT_val]; norm_num [abs_of_nonneg],
   stopping_distance_le_breaking_distance (-SPEED_LIMIT)
     (by rw [SPEED_LIMIT_val]; norm_num [abs_of_nonneg])⟩

/-! ## Shortest interval between microsteps -/

/-- C3, as stated, fails: with the configured constants the shortest interval
between microsteps is below 500 microseconds. -/
theorem min_step_interval_below_500 :
    ¬ (500 ≤ 10 ^ 6 * MM_PER_ROTATION /
        ((MOTOR_STEPS : ℚ) * (N_MICROSTEPS : ℚ) * SPEED_LIMIT_MM_S)) := by
  norm_num [MM_PER_ROTATION, MOTOR_STEPS, N_MICROSTEPS, SPEED_LIMIT_MM_S]

/-- C3, amended: with the configured constants the shortest interval between
microsteps equals `1 / SPEED_LIMIT`, which is exactly 497.5 microseconds: within
half a percent of the documented 500 microseconds, and below it. -/
theorem min_step_interval_value :
    10 ^ 6 * MM_PER_ROTATION / ((MOTOR_STEPS : ℚ) * (N_MICROSTEPS : ℚ) * SPEED_LIMIT_MM_S)
        = 1 / SPEED_LIMIT ∧
      1 / SPEED_LIMIT = 497.5 ∧
      (1 - 5 / 1000) * 500 ≤ 1 / SPEED_LIMIT ∧ 1 / SPEED_LIMIT < 500 := by
  rw [SPEED_LIMIT_val]
  norm_num [MM_PER_ROTATION, MOTOR_STEPS, N_MICROSTEPS, SPEED_LIMIT_MM_S]

/-! ## Backlash in microsteps -/

theorem truncate_of_nonneg {q : ℚ} (hq : 0 ≤ q) : truncate q = ⌊q⌋ := by
  simp [truncate, hq]

theorem wrap16_of_fits {x : Int} (hlo : -32768 ≤ x) (hhi : x < 32768) : wrap16 x = x := by
  unfold wrap16; omega

theorem MM_PER_MICROSTEP_pos : 0 < MM_PER_MICROSTEP := by
  rw [MM_PER_MICROSTEP_val]; norm_num

/-! ### Rounding to binary32 -/

theorem round_half_even_err (y : ℚ) : |(round_half_even y : ℚ) - y| ≤ 1 / 2 := by
  have h1 := Int.floor_le y
  have h2 := Int.lt_floor_add_one y
  unfold round_half_even
  rw [abs_le]
  split_ifs <;> push_cast <;> constructor <;> linarith

theorem round_half_even_nonneg {y : ℚ} (hy : 0 ≤ y) : 0 ≤ round_half_even y := by
  have h0 : 0 ≤ ⌊y⌋ := Int.floor_nonneg.mpr hy
  unfold round_half_even
  split_ifs <;> omega

/-- A rational strictly within one half of an integer rounds to that integer. -/
theorem round_half_even_eq {y : ℚ} {m : Int} (h : |y - (m : ℚ)| < 1 / 2) :
    round_half_even y = m := by
  obtain ⟨h1, h2⟩ := abs_lt.mp h
  rcases le_or_lt (m : ℚ) y with hc | hc
  · have hf : ⌊y⌋ = m := by
      rw [Int.floor_eq_iff]; constructor <;> linarith
    unfold round_half_even
    rw [hf, if_pos (by linarith)]
  · have hf : ⌊y⌋ = m - 1 := by
      rw [Int.floor_eq_iff]; push_cast; constructor <;> linarith
    unfold round_half_even
    rw [hf, if_neg (by push_cast; linarith), if_pos (by push_cast; linarith)]
    omega

theorem f32_ulp_pos (x : ℚ) : 0 < f32_ulp x := by
  unfold f32_ulp; positivity

theorem round32_nonneg {x : ℚ} (hx : 0 ≤ x) : 0 ≤ round32 x := by
  unfold round32
  have h := round_half_even_nonneg (div_nonneg hx (f32_ulp_pos x).le)
  have hc : (0 : ℚ) ≤ (round_half_even (x / f32_ulp x) : ℚ) := by exact_mod_cast h
  exact mul_nonneg hc (f32_ulp_pos x).le

theorem round32_zero : round32 0 = 0 := by
  simp [round32, round_half_even]

theorem f32_exponent_eq {x : ℚ} {e : Int} (he : -126 ≤ e) (hlo : (2 : ℚ) ^ e ≤ |x|)
    (hhi : |x| < (2 : ℚ) ^ (e + 1)) : f32_exponent x = e := by
  have hpos : 0 < |x| := lt_of_lt_of_le (by positivity) hlo
  have h1 : e ≤ Int.log 2 |x| :=
    (Int.zpow_le_iff_le_log (by norm_num) hpos).mp (by exact_mod_cast hlo)
  have h2 : Int.log 2 |x| < e + 1 :=
    (Int.lt_zpow_iff_log_lt (by norm_num) hpos).mp (by exact_mod_cast hhi)
  unfold f32_exponent
  omega

/-- Evaluation of `round32`: for `x` in the binade `2^e ≤ |x| < 2^(e+1)` of a
normal exponent, the result is `m * 2^(e-23)` for the integer `m` strictly
nearest to `x / 2^(e-23)`. -/
theorem round32_eq {x : ℚ} (e m : Int) (he : -126 ≤ e) (hlo : (2 : ℚ) ^ e ≤ |x|)
    (hhi : |x| < (2 : ℚ) ^ (e + 1)) (hm : |x / (2 : ℚ) ^ (e - 23) - (m : ℚ)| < 1 / 2) :
    round32 x = (m : ℚ) * (2 : ℚ) ^ (e - 23) := by
  unfold round32 f32_ulp
  rw [f32_exponent_eq he hlo hhi, round_half_even_eq hm]

theorem f32_ulp_le {x : ℚ} (hx : x ≠ 0) : f32_ulp x ≤ |x| / 2 ^ 23 + 1 / 2 ^ 149 := by
  have hpos : 0 < |x| := abs_pos.mpr hx
  unfold f32_ulp f32_exponent
  rcases le_total (Int.log 2 |x|) (-126) with h | h
  · rw [max_eq_right h]
    have hnn : (0 : ℚ) ≤ |x| / 2 ^ 23 := by positivity
    have e : (2 : ℚ) ^ ((-126 : Int) - 23) = 1 / 2 ^ 149 := by norm_num [zpow_neg]
    rw [e]; linarith
  · rw [max_eq_left h]
    have hlog : ((2 : ℕ) : ℚ) ^ Int.log 2 |x| ≤ |x| :=
      Int.zpow_log_le_self (by norm_num) hpos
    have hlog2 : (2 : ℚ) ^ Int.log 2 |x| ≤ |x| := by exact_mod_cast hlog
    rw [zpow_sub₀ (by norm_num : (2 : ℚ) ≠ 0)]
    have e : (2 : ℚ) ^ (23 : Int) = 2 ^ 23 := by norm_num
    rw [e]
    have hdiv : (2 : ℚ) ^ Int.log 2 |x| / 2 ^ 23 ≤ |x| / 2 ^ 23 :=
      div_le_div_of_nonneg_right hlog2 (by positivity)
    have hnn : (0 : ℚ) ≤ 1 / 2 ^ 149 := by positivity
    linarith

/-- Rounding error of binary32: half a unit in the last place, that is a
relative error of at most `2^-24` for normal numbers and an absolute error of
at most `2^-150` for subnormal ones. -/
theorem round32_err (x : ℚ) : |round32 x - x| ≤ |x| / 2 ^ 24 + 1 / 2 ^ 150 := by
  by_cases hx : x = 0
  · subst hx; rw [round32_zero]; norm_num
  · have hu := f32_ulp_pos x
    have he := round_half_even_err (x / f32_ulp x)
    have hle := f32_ulp_le hx
    have key : round32 x - x =
        ((round_half_even (x / f32_ulp x) : ℚ) - x / f32_ulp x) * f32_ulp x := by
      unfold round32; field_simp
    rw [key, abs_mul, abs_of_pos hu]
    calc |(round_half_even (x / f32_ulp x) : ℚ) - x / f32_ulp x| * f32_ulp x
        ≤ 1 / 2 * f32_ulp x := mul_le_mul_of_nonneg_right he hu.le
      _ ≤ 1 / 2 * (|x| / 2 ^ 23 + 1 / 2 ^ 149) :=
          mul_le_mul_of_nonneg_left hle (by norm_num)
      _ = |x| / 2 ^ 24 + 1 / 2 ^ 150 := by ring

/-! ### The stored constants -/

theorem MM_PER_ROTATION_f32_val : MM_PER_ROTATION_f32 = 8346665 / 2097152 := by
  unfold MM_PER_ROTATION_f32 MM_PER_ROTATION
  rw [round32_eq 1 16693330 (by norm_num) (by norm_num [abs_of_nonneg])
    (by norm_num [abs_of_nonneg]) (by norm_num [abs_lt])]
  norm_num

theorem round32_MOTOR_STEPS : round32 (MOTOR_STEPS : ℚ) = 200 := by
  unfold MOTOR_STEPS
  rw [round32_eq 7 13107200 (by norm_num) (by norm_num [abs_of_nonneg])
    (by norm_num [abs_of_nonneg]) (by norm_num [abs_lt])]
  norm_num

theorem round32_N_MICROSTEPS : round32 (N_MICROSTEPS : ℚ) = 8 := by
  unfold N_MICROSTEPS
  rw [round32_eq 3 8388608 (by norm_num) (by norm_num [abs_of_nonneg])
    (by norm_num [abs_of_nonneg]) (by norm_num [abs_lt])]
  norm_num

theorem MM_PER_MICROSTEP_f32_val : MM_PER_MICROSTEP_f32 = 10683731 / 4294967296 := by
  have hmul : f32_mul 200 8 = 1600 := by
    unfold f32_mul
    rw [round32_eq 10 13107200 (by norm_num) (by norm_num [abs_of_nonneg])
      (by norm_num [abs_of_nonneg]) (by norm_num [abs_lt])]
    norm_num
  unfold MM_PER_MICROSTEP_f32
  rw [MM_PER_ROTATION_f32_val, round32_MOTOR_STEPS, round32_N_MICROSTEPS, hmul]
  unfold f32_div
  rw [round32_eq (-9) 10683731 (by norm_num) (by norm_num [abs_of_nonneg])
    (by norm_num [abs_of_nonneg]) (by norm_num [abs_lt])]
  norm_num

/-- Evaluation of `BACKLASH_of` from the two roundings it performs. -/
theorem BACKLASH_of_eval {a s q : ℚ} {n : Int} (hs : round32 a = s)
    (hq : round32 (s / (10683731 / 4294967296)) = q) (h0 : 0 ≤ q) (hn : ⌊q⌋ = n)
    (hlo : -32768 ≤ n) (hhi : n < 32768) : BACKLASH_of a = n := by
  unfold BACKLASH_of to_short f32_div
  rw [hs, MM_PER_MICROSTEP_f32_val, hq, truncate_of_nonneg h0, hn]
  exact wrap16_of_fits hlo hhi

theorem BACKLASH_val : BACKLASH = 80 := by
  have hs : round32 BACKLASH_MM = 13421773 / 67108864 := by
    unfold BACKLASH_MM
    rw [round32_eq (-3) 13421773 (by norm_num) (by norm_num [abs_of_nonneg])
      (by norm_num [abs_of_nonneg]) (by norm_num [abs_lt])]
    norm_num
  have hq : round32 ((13421773 / 67108864 : ℚ) / (10683731 / 4294967296)) =
      10538453 / 131072 := by
    rw [round32_eq 6 10538453 (by norm_num) (by norm_num [abs_of_nonneg])
      (by norm_num [abs_of_nonneg]) (by norm_num [abs_lt])]
    norm_num
  exact BACKLASH_of_eval hs hq (by norm_num) (by rw [Int.floor_eq_iff]; norm_num)
    (by decide) (by decide)

theorem BACKLASH_of_zero : BACKLASH_of 0 = 0 := by
  unfold BACKLASH_of to_short f32_div
  rw [round32_zero, zero_div, round32_zero, truncate_of_nonneg le_rfl, Int.floor_zero]
  decide

theorem f32_quotient_at_0_1368125 :
    f32_div (round32 0.1368125) MM_PER_MICROSTEP_f32 = 14417919 / 262144 := by
  have hs : round32 (0.1368125 : ℚ) = 9181331 / 67108864 := by
    rw [round32_eq (-3) 9181331 (by norm_num) (by norm_num [abs_of_nonneg])
      (by norm_num [abs_of_nonneg]) (by norm_num [abs_lt])]
    norm_num
  unfold f32_div
  rw [hs, MM_PER_MICROSTEP_f32_val,
    round32_eq 5 14417919 (by norm_num) (by norm_num [abs_of_nonneg])
      (by norm_num [abs_of_nonneg]) (by norm_num [abs_lt])]
  norm_num

theorem BACKLASH_of_0_1368125 : BACKLASH_of 0.1368125 = 54 := by
  have hq := f32_quotient_at_0_1368125
  unfold BACKLASH_of to_short
  rw [hq, truncate_of_nonneg (by norm_num)]
  have hfl : ⌊(14417919 / 262144 : ℚ)⌋ = 54 := by rw [Int.floor_eq_iff]; norm_num
  rw [hfl]
  decide

/-! ### BACKLASH against the exact count of microsteps -/

/-- C5, as stated, fails: for `BACKLASH_MM = 0.1368125`, which is exactly 55
microsteps of `MM_PER_MICROSTEP = 3.98 / 1600` mm, the single precision division
of the header yields 54 and not `floor (BACKLASH_MM / MM_PER_MICROSTEP) = 55`,
and `BACKLASH_MM < (BACKLASH + 1) * MM_PER_MICROSTEP` does not hold. -/
theorem BACKLASH_below_exact_floor :
    (0 : ℚ) ≤ 0.1368125 ∧ (0.1368125 : ℚ) / MM_PER_MICROSTEP < 32768 ∧
      BACKLASH_of 0.1368125 = 54 ∧ ⌊(0.1368125 : ℚ) / MM_PER_MICROSTEP⌋ = 55 ∧
      ¬ ((0.1368125 : ℚ) < ((BACKLASH_of 0.1368125 : ℚ) + 1) * MM_PER_MICROSTEP) := by
  refine ⟨by norm_num, ?_, BACKLASH_of_0_1368125, ?_, ?_⟩
  · rw [MM_PER_MICROSTEP_val]; norm_num
  · rw [MM_PER_MICROSTEP_val, Int.floor_eq_iff]; norm_num
  · rw [BACKLASH_of_0_1368125, MM_PER_MICROSTEP_val]; norm_num

/-- The rounding of the quotient can also carry `BACKLASH` above the whole
number of microsteps counted on the stored values: the binary32 number
`4006399 / 2^29` lies just below three stored microsteps, and the header
yields 3. -/
theorem BACKLASH_above_floor_of_stored_quotient :
    round32 (4006399 / 536870912) = 4006399 / 536870912 ∧
      ⌊(4006399 / 536870912 : ℚ) / MM_PER_MICROSTEP_f32⌋ = 2 ∧
      BACKLASH_of (4006399 / 536870912) = 3 := by
  have hs : round32 (4006399 / 536870912 : ℚ) = 4006399 / 536870912 := by
    rw [round32_eq (-8) 16025596 (by norm_num) (by norm_num [abs_of_nonneg])
      (by norm_num [abs_of_nonneg]) (by norm_num [abs_lt])]
    norm_num
  have hq : round32 ((4006399 / 536870912 : ℚ) / (10683731 / 4294967296)) = 3 := by
    rw [round32_eq 1 12582912 (by norm_num) (by norm_num [abs_of_nonneg])
      (by norm_num [abs_of_nonneg]) (by norm_num [abs_lt])]
    norm_num
  refine ⟨hs, ?_, ?_⟩
  · rw [MM_PER_MICROSTEP_f32_val, Int.floor_eq_iff]; norm_num
  · exact BACKLASH_of_eval hs hq (by norm_num) (by rw [Int.floor_eq_iff]; norm_num)
      (by decide) (by decide)

/-- C5, amended: for every backlash distance `backlash_mm ≥ 0` whose single
precision quotient `q = f32_div (round32 backlash_mm) MM_PER_MICROSTEP_f32` fits
a 16-bit `short`, `BACKLASH` is the whole part `floor q` of that quotient and is
non-negative; it brackets the configured distance up to the rounding error,
`BACKLASH * MM_PER_MICROSTEP ≤ backlash_mm * (1 + 2^-22)` and
`backlash_mm * (1 - 2^-22) < (BACKLASH + 1) * MM_PER_MICROSTEP` with the exact
`MM_PER_MICROSTEP = 3.98 / 1600`; for the configured 0.2 mm it is 80 and for
0 mm it is 0. -/
theorem BACKLASH_is_floor_of_f32_quotient (backlash_mm : ℚ) (h0 : 0 ≤ backlash_mm)
    (hfit : f32_div (round32 backlash_mm) MM_PER_MICROSTEP_f32 < 32768) :
    BACKLASH_of backlash_mm = ⌊f32_div (round32 backlash_mm) MM_PER_MICROSTEP_f32⌋ ∧
      0 ≤ BACKLASH_of backlash_mm ∧
      (BACKLASH_of backlash_mm : ℚ) * MM_PER_MICROSTEP ≤ backlash_mm * (1 + 1 / 2 ^ 22) ∧
      backlash_mm * (1 - 1 / 2 ^ 22) <
        ((BACKLASH_of backlash_mm : ℚ) + 1) * MM_PER_MICROSTEP ∧
      BACKLASH = 80 ∧ BACKLASH_of 0 = 0 := by
  have hs : 0 ≤ round32 backlash_mm := round32_nonneg h0
  have hq0 : 0 ≤ round32 backlash_mm / MM_PER_MICROSTEP_f32 := by
    rw [MM_PER_MICROSTEP_f32_val]; positivity
  have hq : 0 ≤ f32_div (round32 backlash_mm) MM_PER_MICROSTEP_f32 := round32_nonneg hq0
  have hn0 : 0 ≤ ⌊f32_div (round32 backlash_mm) MM_PER_MICROSTEP_f32⌋ :=
    Int.floor_nonneg.mpr hq
  have hnlt : ⌊f32_div (round32 backlash_mm) MM_PER_MICROSTEP_f32⌋ < 32768 := by
    rw [Int.floor_lt]; exact_mod_cast hfit
  have heq : BACKLASH_of backlash_mm =
      ⌊f32_div (round32 backlash_mm) MM_PER_MICROSTEP_f32⌋ := by
    unfold BACKLASH_of to_short
    rw [truncate_of_nonneg hq]
    exact wrap16_of_fits (by omega) hnlt
  refine ⟨heq, heq ▸ hn0, ?_, ?_, BACKLASH_val, BACKLASH_of_zero⟩
  all_goals
    rw [heq]
    have e1 := abs_le.mp (round32_err backlash_mm)
    have e2 := abs_le.mp (round32_err (round32 backlash_mm / MM_PER_MICROSTEP_f32))
    rw [abs_of_nonneg h0] at e1
    rw [abs_of_nonneg hq0] at e2
    have hfl := Int.floor_le (f32_div (round32 backlash_mm) MM_PER_MICROSTEP_f32)
    have hfl2 := Int.lt_floor_add_one (f32_div (round32 backlash_mm) MM_PER_MICROSTEP_f32)
    have hdiv : round32 backlash_mm / MM_PER_MICROSTEP_f32 =
        round32 backlash_mm * (4294967296 / 10683731) := by
      rw [MM_PER_MICROSTEP_f32_val]; field_simp
    unfold f32_div at hfl hfl2 hn0 ⊢
    rw [hdiv] at e2 hfl hfl2 hn0 ⊢
    rw [MM_PER_MICROSTEP_val]
    generalize ⌊round32 (round32 backlash_mm * (4294967296 / 10683731))⌋ = n at *
    generalize round32 (round32 backlash_mm * (4294967296 / 10683731)) = q at *
    generalize round32 backlash_mm = s at *
    obtain ⟨e1l, e1u⟩ := e1
    obtain ⟨e2l, e2u⟩ := e2
  · rcases hn0.eq_or_lt with hz | hpos
    · rw [← hz]; push_cast
      have hnn : 0 ≤ backlash_mm * (1 + 1 / 2 ^ 22) := by positivity
      linarith
    · have hB : (1 : ℚ) ≤ n := by exact_mod_cast hpos
      linarith
  · have hB : (0 : ℚ) ≤ n := by exact_mod_cast hn0
    rcases le_or_lt backlash_mm (1 / 2 ^ 100) with hsmall | hlarge
    · linarith
    · linarith

/-- Witness for the amended C5 at `BACKLASH_MM = 0.1368125`, where the header
yields 54. -/
theorem BACKLASH_is_floor_of_f32_quotient_witness :
    (0 : ℚ) ≤ 0.1368125 ∧ f32_div (round32 0.1368125) MM_PER_MICROSTEP_f32 < 32768 ∧
    BACKLASH_of 0.1368125 = ⌊f32_div (round32 0.1368125) MM_PER_MICROSTEP_f32⌋ ∧
      0 ≤ BACKLASH_of 0.1368125 ∧
      (BACKLASH_of 0.1368125 : ℚ) * MM_PER_MICROSTEP ≤ 0.1368125 * (1 + 1 / 2 ^ 22) ∧
      (0.1368125 : ℚ) * (1 - 1 / 2 ^ 22) <
        ((BACKLASH_of 0.1368125 : ℚ) + 1) * MM_PER_MICROSTEP ∧
      BACKLASH = 80 ∧ BACKLASH_of 0 = 0 :=
  ⟨by norm_num, by rw [f32_quotient_at_0_1368125]; norm_num,
   BACKLASH_is_floor_of_f32_quotient 0.1368125 (by norm_num)
     (by rw [f32_quotient_at_0_1368125]; norm_num)⟩

/-! ## Parameter tables -/

/-- In a list of positive entries every index below the length selects a
positive entry. -/
theorem lookup_pos {α : Type} [Zero α] [LT α] (xs : List α) (hpos : ∀ x ∈ xs, 0 < x)
    (i : Int) (h0 : 0 ≤ i) (h : i < (xs.length : Int)) :
    ∃ v : α, xs[i.toNat]? = some v ∧ 0 < v := by
  have hi : i.toNat < xs.length := by omega
  exact ⟨xs[i.toNat], List.getElem?_eq_getElem hi, hpos _ (List.getElem_mem hi)⟩

/-- C6: the tables `MM_PER_FRAME`, `FPS` and `N_SHOTS` have exactly
`N_PARAMS = 25` entries and the two delay tables exactly 5 each, so every index
`0 ≤ i < N_PARAMS` (and every delay index `0 ≤ j < N_FIRST_DELAY`,
`0 ≤ k < N_SECOND_DELAY`) selects an entry, and the entry is strictly positive. -/
theorem table_lookup_defined (i j k : Int) (hi0 : 0 ≤ i) (hi : i < N_PARAMS)
    (hj0 : 0 ≤ j) (hj : j < N_FIRST_DELAY) (hk0 : 0 ≤ k) (hk : k < N_SECOND_DELAY) :
    N_PARAMS = 25 ∧ N_FIRST_DELAY = 5 ∧ N_SECOND_DELAY = 5 ∧
      (MM_PER_FRAME.length : Int) = N_PARAMS ∧ (FPS.length : Int) = N_PARAMS ∧
      (N_SHOTS.length : Int) = N_PARAMS ∧
      (FIRST_DELAY.length : Int) = N_FIRST_DELAY ∧
      (SECOND_DELAY.length : Int) = N_SECOND_DELAY ∧
      (∃ m : ℚ, MM_PER_FRAME[i.toNat]? = some m ∧ 0 < m) ∧
      (∃ f : ℚ, FPS[i.toNat]? = some f ∧ 0 < f) ∧
      (∃ n : Int, N_SHOTS[i.toNat]? = some n ∧ 0 < n) ∧
      (∃ d : ℚ, FIRST_DELAY[j.toNat]? = some d ∧ 0 < d) ∧
      (∃ d : ℚ, SECOND_DELAY[k.toNat]? = some d ∧ 0 < d) := by
  have hi' : i < 25 := hi
  have hj' : j < 5 := hj
  have hk' : k < 5 := hk
  refine ⟨rfl, rfl, rfl, rfl, rfl, rfl, rfl, rfl, ?_, ?_, ?_, ?_, ?_⟩
  · exact lookup_pos MM_PER_FRAME (by simp [MM_PER_FRAME]; norm_num) i hi0 hi'
  · exact lookup_pos FPS (by simp [FPS]; norm_num) i hi0 hi'
  · exact lookup_pos N_SHOTS (by simp [N_SHOTS]) i hi0 hi'
  · exact lookup_pos FIRST_DELAY (by simp [FIRST_DELAY]; norm_num) j hj0 hj'
  · exact lookup_pos SECOND_DELAY (by simp [SECOND_DELAY]; norm_num) k hk0 hk'

/-- Witness for C6 at the last parameter index and the first and last delay
indices. -/
theorem table_lookup_defined_witness :
    (0 : Int) ≤ 24 ∧ (24 : Int) < N_PARAMS ∧ (0 : Int) ≤ 0 ∧ (0 : Int) < N_FIRST_DELAY ∧
    (0 : Int) ≤ 4 ∧ (4 : Int) < N_SECOND_DELAY ∧
    N_PARAMS = 25 ∧ N_FIRST_DELAY = 5 ∧ N_SECOND_DELAY = 5 ∧
      (MM_PER_FRAME.length : Int) = N_PARAMS ∧ (FPS.length : Int) = N_PARAMS ∧
      (N_SHOTS.length : Int) = N_PARAMS ∧
      (FIRST_DELAY.length : Int) = N_FIRST_DELAY ∧
      (SECOND_DELAY.length : Int) = N_SECOND_DELAY ∧
      (∃ m : ℚ, MM_PER_FRAME[(24 : Int).toNat]? = some m ∧ 0 < m) ∧
      (∃ f : ℚ, FPS[(24 : Int).toNat]? = some f ∧ 0 < f) ∧
      (∃ n : Int, N_SHOTS[(24 : Int).toNat]? = some n ∧ 0 < n) ∧
      (∃ d : ℚ, FIRST_DELAY[(0 : Int).toNat]? = some d ∧ 0 < d) ∧
      (∃ d : ℚ, SECOND_DELAY[(4 : Int).toNat]? = some d ∧ 0 < d) :=
  ⟨by decide, by decide, by decide, by decide, by decide, by decide,
   table_lookup_defined 24 0 4 (by decide) (by decide) (by decide) (by decide)
     (by decide) (by decide)⟩

/-! ## Unit conversions -/

/-- C9: the derived unit conversions agree with each other over exact rational
arithmetic: a rotation is `MICROSTEPS_PER_ROTATION = 1600` microsteps (the
product `MOTOR_STEPS * N_MICROSTEPS` fits 16 bits) of `MM_PER_MICROSTEP` mm each;
`SPEED_SCALE` is the inverse of `10^6 * MM_PER_MICROSTEP`, so `SPEED_LIMIT`
microsteps per microsecond is exactly `SPEED_LIMIT_MM_S` mm/s; and
`BREAKING_DISTANCE` microsteps are exactly `BREAKING_DISTANCE_MM` mm. -/
theorem unit_conversions_consistent :
    MM_PER_MICROSTEP * (MICROSTEPS_PER_ROTATION : ℚ) = MM_PER_ROTATION ∧
      MICROSTEPS_PER_ROTATION = 1600 ∧
      MICROSTEPS_PER_ROTATION = MOTOR_STEPS * N_MICROSTEPS ∧
      SPEED_SCALE * 10 ^ 6 * MM_PER_MICROSTEP = 1 ∧
      SPEED_LIMIT * 10 ^ 6 * MM_PER_MICROSTEP = SPEED_LIMIT_MM_S ∧
      BREAKING_DISTANCE * MM_PER_MICROSTEP = BREAKING_DISTANCE_MM := by
  refine ⟨?_, by decide, by decide, ?_, ?_, ?_⟩
  · rw [MM_PER_MICROSTEP_val, MICROSTEPS_PER_ROTATION_val]; norm_num [MM_PER_ROTATION]
  · rw [SPEED_SCALE_val, MM_PER_MICROSTEP_val]; norm_num
  · rw [SPEED_LIMIT_val, MM_PER_MICROSTEP_val]; norm_num [SPEED_LIMIT_MM_S]
  · rw [BREAKING_DISTANCE_val, MM_PER_MICROSTEP_val]; norm_num [BREAKING_DISTANCE_MM]

/-! ## EEPROM address map -/

theorem eeprom_disjoint_or_eq (f g : Field) : f = g ∨ Field.disjoint f g := by
  cases f <;> cases g <;> decide

/-- C10: with every field given the size of its stored type, the address map
lists its fifteen fields at the byte ranges 0-3, 4, 6-7, 8-9, 10-11, 12-13,
14-15, 16-17, 18-19, 20, 22-23, 24-37, 38-51, 52-53, 54-55: each field ends
before the next one starts (so addresses strictly increase and any two
different fields are disjoint), the first starts at 0 and the last ends at
byte 56. -/
theorem eeprom_map_no_overlap :
    eeprom_fields.length = 15 ∧
      eeprom_fields.map (fun f => (f.addr, f.size)) =
        [(0, 4), (4, 1), (6, 2), (8, 2), (10, 2), (12, 2), (14, 2), (16, 2), (18, 2),
         (20, 1), (22, 2), (24, 14), (38, 14), (52, 2), (54, 2)] ∧
      SIZE_REG = 14 ∧
      eeprom_fields.Pairwise (fun f g => f.stop ≤ g.addr) ∧
      eeprom_fields.Pairwise (fun f g => f.addr < g.addr) ∧
      (∀ f g : Field, f = g ∨ Field.disjoint f g) ∧
      (∀ f : Field, f ∈ eeprom_fields ∧ 0 < f.size ∧ 0 ≤ f.addr ∧ f.stop ≤ 56) ∧
      ADDR_POS = 0 ∧ Field.stop Field.i_second_delay = 56 := by
  refine ⟨rfl, by decide, by decide, by decide, by decide, eeprom_disjoint_or_eq, ?_,
    rfl, by decide⟩
  intro f
  cases f <;> decide

theorem SPEED_SCALE_pos : 0 < SPEED_SCALE := by rw [SPEED_SCALE_val]; norm_num

/-- The table of products `FPS[a] * MM_PER_FRAME[b]`, compared entry by entry
with the speed limit. -/
theorem speed_table_check : ∀ a : Fin 25, ∀ b : Fin 25,
    ((FPS.getD a 0 * MM_PER_FRAME.getD b 0 ≤ SPEED_LIMIT_MM_S) ↔
      (a.val + b.val ≤ 44 ∨ (a.val = 24 ∧ b.val = 21))) ∧
    FPS.getD a 0 * MM_PER_FRAME.getD b 0 ≤ 2 * SPEED_LIMIT_MM_S := by
  decide!

/-- C8, as stated, fails: at the last index of both tables the implied speed is
`4 * 2.5 = 10` mm/s, above `SPEED_LIMIT_MM_S = 5` mm/s (and above `SPEED_LIMIT`
in internal units). -/
theorem stacking_speed_exceeds_limit :
    FPS[24]? = some (4 : ℚ) ∧ MM_PER_FRAME[24]? = some (2.5 : ℚ) ∧
      (4 : ℚ) * 2.5 = 10 ∧ ¬ ((4 : ℚ) * 2.5 ≤ SPEED_LIMIT_MM_S) ∧
      ¬ (SPEED_SCALE * 4 * 2.5 ≤ SPEED_LIMIT) := by
  refine ⟨rfl, rfl, by norm_num, by norm_num [SPEED_LIMIT_MM_S], ?_⟩
  rw [SPEED_LIMIT_val, SPEED_SCALE_val]; norm_num

/-- C8, amended: for parameter indices `0 ≤ i, j < N_PARAMS` the speed
`FPS[i] * MM_PER_FRAME[j]` mm/s stays within `SPEED_LIMIT_MM_S` exactly when
`i + j ≤ 44` or `(i, j) = (24, 21)`; the comparison in internal units
(`SPEED_SCALE * FPS[i] * MM_PER_FRAME[j]` against `SPEED_LIMIT`) gives the same
answer, and no pair exceeds twice the limit. -/
theorem stacking_speed_within_limit_iff (i j : Int) (hi0 : 0 ≤ i) (hi : i < N_PARAMS)
    (hj0 : 0 ≤ j) (hj : j < N_PARAMS) (f m : ℚ) (hf : FPS[i.toNat]? = some f)
    (hm : MM_PER_FRAME[j.toNat]? = some m) :
    (f * m ≤ SPEED_LIMIT_MM_S ↔ (i + j ≤ 44 ∨ (i = 24 ∧ j = 21))) ∧
      (SPEED_SCALE * f * m ≤ SPEED_LIMIT ↔ f * m ≤ SPEED_LIMIT_MM_S) ∧
      f * m ≤ 2 * SPEED_LIMIT_MM_S := by
  have hi' : i < 25 := hi
  have hj' : j < 25 := hj
  have ha : i.toNat < 25 := by omega
  have hb : j.toNat < 25 := by omega
  have hfd : FPS.getD i.toNat 0 = f := by
    rw [List.getD_eq_getElem?_getD, hf]; rfl
  have hmd : MM_PER_FRAME.getD j.toNat 0 = m := by
    rw [List.getD_eq_getElem?_getD, hm]; rfl
  have h := speed_table_check ⟨i.toNat, ha⟩ ⟨j.toNat, hb⟩
  simp only [hfd, hmd] at h
  refine ⟨?_, ?_, h.2⟩
  · rw [h.1]
    constructor
    · intro hc; omega
    · intro hc; omega
  · unfold SPEED_LIMIT
    rw [mul_assoc]
    exact mul_le_mul_left SPEED_SCALE_pos

/-- Witness for the amended C8 at `FPS[20] = 2` and `MM_PER_FRAME[24] = 2.5`,
a pair that runs exactly at the speed limit. -/
theorem stacking_speed_within_limit_iff_witness :
    (0 : Int) ≤ 20 ∧ (20 : Int) < N_PARAMS ∧ (0 : Int) ≤ 24 ∧ (24 : Int) < N_PARAMS ∧
    FPS[(20 : Int).toNat]? = some (2 : ℚ) ∧
    MM_PER_FRAME[(24 : Int).toNat]? = some (2.5 : ℚ) ∧
    (((2 : ℚ) * 2.5 ≤ SPEED_LIMIT_MM_S ↔
        ((20 : Int) + 24 ≤ 44 ∨ ((20 : Int) = 24 ∧ (24 : Int) = 21))) ∧
      (SPEED_SCALE * 2 * 2.5 ≤ SPEED_LIMIT ↔ (2 : ℚ) * 2.5 ≤ SPEED_LIMIT_MM_S) ∧
      (2 : ℚ) * 2.5 ≤ 2 * SPEED_LIMIT_MM_S) :=
  ⟨by decide, by decide, by decide, by decide, rfl, rfl,
   stacking_speed_within_limit_iff 20 24 (by decide) (by decide) (by decide) (by decide)
     2 2.5 rfl rfl⟩

/-! ## Backlash compensator -/

theorem bl_init_inv (backlash : Int) (hB : 0 ≤ backlash) (p : Int) :
    BLInv backlash (bl_init p) := by
  simp [BLInv, bl_init, hB]

theorem bl_tick_inv (backlash : Int) (hB : 0 ≤ backlash) (s : BLState)
    (cmd : Option Bool) (h : BLInv backlash s) : BLInv backlash (bl_tick backlash s cmd) := by
  obtain ⟨h0, h1, h2, h3⟩ := h
  cases cmd with
  | none =>
    by_cases hc : 0 < s.BL_counter
    · have hne : backlash ≠ 0 := by omega
      simp only [bl_tick, bl_step, BLInv, hc, hne, if_true, if_false]
      refine ⟨by omega, by omega, by omega, by simp⟩
    · simp only [bl_tick, BLInv, hc, if_false]
      refine ⟨h0, h1, h2, fun _ => by omega⟩
  | some d =>
    cases d <;> simp only [bl_tick, bl_step, BLInv] <;> split_ifs <;>
      refine ⟨?_, ?_, ?_, ?_⟩ <;> simp <;> omega

theorem bl_run_inv (backlash : Int) (hB : 0 ≤ backlash) (cmds : List (Option Bool)) :
    ∀ s : BLState, BLInv backlash s → BLInv backlash (bl_run backlash s cmds) := by
  induction cmds with
  | nil => intro s h; exact h
  | cons c cs ih =>
    intro s h
    exact ih _ (bl_tick_inv backlash hB s c h)

theorem bl_run_append (backlash : Int) (s : BLState) (xs ys : List (Option Bool)) :
    bl_run backlash s (xs ++ ys) = bl_run backlash (bl_run backlash s xs) ys := by
  simp [bl_run, List.foldl_append]

/-- An idle tick leaves the rail where it is and takes up one microstep of
slack, if any is left. -/
theorem bl_tick_none (backlash : Int) (s : BLState) (h : BLInv backlash s) :
    (bl_tick backlash s none).phys = s.phys ∧
      (bl_tick backlash s none).BL_counter ≤ max (s.BL_counter - 1) 0 := by
  obtain ⟨h0, h1, h2, h3⟩ := h
  by_cases hc : 0 < s.BL_counter
  · have hne : backlash ≠ 0 := by omega
    simp only [bl_tick, bl_step, hc, hne, if_true, if_false]
    exact ⟨trivial, le_max_left _ _⟩
  · simp only [bl_tick, hc, if_false]
    exact ⟨trivial, by omega⟩

/-- After the controller has finished, at most `BL_counter + 1` further ticks
bring the rail to rest, with no slack left and without moving it. -/
theorem bl_settle (backlash : Int) (hB : 0 ≤ backlash) :
    ∀ (n : Nat) (s : BLState), BLInv backlash s → s.BL_counter ≤ n →
      (bl_run backlash s (List.replicate (n + 1) none)).moving = false ∧
      (bl_run backlash s (List.replicate (n + 1) none)).BL_counter = 0 ∧
      (bl_run backlash s (List.replicate (n + 1) none)).pos = s.phys ∧
      (bl_run backlash s (List.replicate (n + 1) none)).phys = s.phys := by
  intro n
  induction n with
  | zero =>
    intro s h hn
    obtain ⟨h0, h1, h2, h3⟩ := h
    have hc : ¬ 0 < s.BL_counter := by omega
    simp only [bl_run, List.replicate, List.foldl, bl_tick, hc, if_false]
    refine ⟨trivial, by omega, by omega, trivial⟩
  | succ n ih =>
    intro s h hn
    have hinv := bl_tick_inv backlash hB s none h
    obtain ⟨hphys, hcnt⟩ := bl_tick_none backlash s h
    have hle : (bl_tick backlash s none).BL_counter ≤ (n : Int) := by
      have := h.1
      rcases le_max_iff.mp (le_refl (max (s.BL_counter - 1) 0)) with hm | hm <;> omega
    have hrec := ih (bl_tick backlash s none) hinv hle
    rw [hphys] at hrec
    have hstep : bl_run backlash s (List.replicate (n + 1 + 1) none) =
        bl_run backlash (bl_tick backlash s none) (List.replicate (n + 1) none) := by
      simp [bl_run, List.replicate_succ]
    rw [hstep]
    exact hrec

/-- C7 (against the compensator modelled from section 4.2): from a rail at rest
at `p`, after any sequence of control ticks `cmds` the slack counter is within
`0..backlash`, and whenever the rail is at rest the counter is 0 and the
program coordinate equals the physical coordinate; moreover the rail does come
to rest: once the controller stops issuing steps, `backlash + 1` further ticks
leave it at rest with program coordinate equal to physical coordinate, at the
physical position it had when the controller stopped. -/
theorem backlash_resolved_at_rest (backlash : Int) (hB : 0 ≤ backlash) (p : Int)
    (cmds : List (Option Bool)) :
    0 ≤ (bl_run backlash (bl_init p) cmds).BL_counter ∧
      (bl_run backlash (bl_init p) cmds).BL_counter ≤ backlash ∧
      ((bl_run backlash (bl_init p) cmds).moving = false →
        (bl_run backlash (bl_init p) cmds).BL_counter = 0 ∧
        (bl_run backlash (bl_init p) cmds).pos = (bl_run backlash (bl_init p) cmds).phys) ∧
      (bl_run backlash (bl_init p)
        (cmds ++ List.replicate (backlash.toNat + 1) none)).moving = false ∧
      (bl_run backlash (bl_init p)
        (cmds ++ List.replicate (backlash.toNat + 1) none)).BL_counter = 0 ∧
      (bl_run backlash (bl_init p) (cmds ++ List.replicate (backlash.toNat + 1) none)).pos =
        (bl_run backlash (bl_init p)
          (cmds ++ List.replicate (backlash.toNat + 1) none)).phys ∧
      (bl_run backlash (bl_init p) (cmds ++ List.replicate (backlash.toNat + 1) none)).phys =
        (bl_run backlash (bl_init p) cmds).phys := by
  have hinv := bl_run_inv backlash hB cmds (bl_init p) (bl_init_inv backlash hB p)
  have hn : (bl_run backlash (bl_init p) cmds).BL_counter ≤ (backlash.toNat : Int) := by
    have := hinv.2.1; omega
  obtain ⟨r1, r2, r3, r4⟩ := bl_settle backlash hB backlash.toNat _ hinv hn
  obtain ⟨h0, h1, h2, h3⟩ := hinv
  rw [bl_run_append]
  refine ⟨h0, h1, fun hm => ⟨h3 hm, ?_⟩, r1, r2, by rw [r3, r4], r4⟩
  have := h3 hm
  omega

/-- Witness for C7 with the configured backlash: two steps in the bad
direction, one in the good direction, then the controller stops. -/
theorem backlash_resolved_at_rest_witness :
    0 ≤ BACKLASH ∧
    0 ≤ (bl_run BACKLASH (bl_init 0) [some false, some false, some true, none]).BL_counter ∧
      (bl_run BACKLASH (bl_init 0)
        [some false, some false, some true, none]).BL_counter ≤ BACKLASH ∧
      ((bl_run BACKLASH (bl_init 0) [some false, some false, some true, none]).moving = false →
        (bl_run BACKLASH (bl_init 0)
          [some false, some false, some true, none]).BL_counter = 0 ∧
        (bl_run BACKLASH (bl_init 0) [some false, some false, some true, none]).pos =
          (bl_run BACKLASH (bl_init 0) [some false, some false, some true, none]).phys) ∧
      (bl_run BACKLASH (bl_init 0) ([some false, some false, some true, none] ++
        List.replicate (BACKLASH.toNat + 1) none)).moving = false ∧
      (bl_run BACKLASH (bl_init 0) ([some false, some false, some true, none] ++
        List.replicate (BACKLASH.toNat + 1) none)).BL_counter = 0 ∧
      (bl_run BACKLASH (bl_init 0) ([some false, some false, some true, none] ++
        List.replicate (BACKLASH.toNat + 1) none)).pos =
        (bl_run BACKLASH (bl_init 0) ([some false, some false, some true, none] ++
          List.replicate (BACKLASH.toNat + 1) none)).phys ∧
      (bl_run BACKLASH (bl_init 0) ([some false, some false, some true, none] ++
        List.replicate (BACKLASH.toNat + 1) none)).phys =
        (bl_run BACKLASH (bl_init 0) [some false, some false, some true, none]).phys :=
  ⟨by rw [BACKLASH_val]; decide,
   backlash_resolved_at_rest BACKLASH (by rw [BACKLASH_val]; decide) 0
     [some false, some false, some true, none]⟩

/-! ## Monotone parameter tables -/

/-- In a table whose entries increase strictly, a smaller index selects a
smaller entry. -/
theorem lookup_lt {α : Type} [LT α] (xs : List α) (hsorted : xs.Pairwise (fun u v => u < v))
    (i j : Int) (h0 : 0 ≤ i) (hij : i < j) (hj : j < (xs.length : Int)) :
    ∃ u v : α, xs[i.toNat]? = some u ∧ xs[j.toNat]? = some v ∧ u < v := by
  have hi' : i.toNat < xs.length := by omega
  have hj' : j.toNat < xs.length := by omega
  have hlt : i.toNat < j.toNat := by omega
  exact ⟨xs[i.toNat], xs[j.toNat], List.getElem?_eq_getElem hi', List.getElem?_eq_getElem hj',
    List.pairwise_iff_getElem.mp hsorted _ _ hi' hj' hlt⟩

theorem MM_PER_FRAME_increasing : MM_PER_FRAME.Pairwise (fun u v => u < v) := by decide!

theorem FPS_increasing : FPS.Pairwise (fun u v => u < v) := by decide!

theorem N_SHOTS_increasing : N_SHOTS.Pairwise (fun u v => u < v) := by decide

theorem FIRST_DELAY_increasing : FIRST_DELAY.Pairwise (fun u v => u < v) := by decide!

theorem SECOND_DELAY_increasing : SECOND_DELAY.Pairwise (fun u v => u < v) := by decide!

/-- C11: every parameter table is strictly increasing in its index: for
`0 ≤ i < j < N_PARAMS` the entries of `MM_PER_FRAME`, `FPS` and `N_SHOTS` at `i`
are below those at `j`, and for `0 ≤ a < b < 5` the same holds for `FIRST_DELAY`
and `SECOND_DELAY`. -/
theorem tables_strictly_increasing (i j a b : Int) (hi0 : 0 ≤ i) (hij : i < j)
    (hj : j < N_PARAMS) (ha0 : 0 ≤ a) (hab : a < b) (hb1 : b < N_FIRST_DELAY)
    (hb2 : b < N_SECOND_DELAY) :
    (∃ u v : ℚ, MM_PER_FRAME[i.toNat]? = some u ∧ MM_PER_FRAME[j.toNat]? = some v ∧ u < v) ∧
      (∃ u v : ℚ, FPS[i.toNat]? = some u ∧ FPS[j.toNat]? = some v ∧ u < v) ∧
      (∃ u v : Int, N_SHOTS[i.toNat]? = some u ∧ N_SHOTS[j.toNat]? = some v ∧ u < v) ∧
      (∃ u v : ℚ, FIRST_DELAY[a.toNat]? = some u ∧ FIRST_DELAY[b.toNat]? = some v ∧ u < v) ∧
      (∃ u v : ℚ, SECOND_DELAY[a.toNat]? = some u ∧ SECOND_DELAY[b.toNat]? = some v ∧
        u < v) ∧
      N_FIRST_DELAY = 5 ∧ N_SECOND_DELAY = 5 := by
  have hj' : j < 25 := hj
  have hb1' : b < 5 := hb1
  have hb2' : b < 5 := hb2
  exact ⟨lookup_lt MM_PER_FRAME MM_PER_FRAME_increasing i j hi0 hij hj',
    lookup_lt FPS FPS_increasing i j hi0 hij hj',
    lookup_lt N_SHOTS N_SHOTS_increasing i j hi0 hij hj',
    lookup_lt FIRST_DELAY FIRST_DELAY_increasing a b ha0 hab hb1',
    lookup_lt SECOND_DELAY SECOND_DELAY_increasing a b ha0 hab hb2', rfl, rfl⟩

/-- Witness for C11 at the parameter indices 0 and 24 and the delay indices 3
and 4. -/
theorem tables_strictly_increasing_witness :
    (0 : Int) ≤ 0 ∧ (0 : Int) < 24 ∧ (24 : Int) < N_PARAMS ∧ (0 : Int) ≤ 3 ∧
    (3 : Int) < 4 ∧ (4 : Int) < N_FIRST_DELAY ∧ (4 : Int) < N_SECOND_DELAY ∧
    ((∃ u v : ℚ, MM_PER_FRAME[(0 : Int).toNat]? = some u ∧
        MM_PER_FRAME[(24 : Int).toNat]? = some v ∧ u < v) ∧
      (∃ u v : ℚ, FPS[(0 : Int).toNat]? = some u ∧ FPS[(24 : Int).toNat]? = some v ∧ u < v) ∧
      (∃ u v : Int, N_SHOTS[(0 : Int).toNat]? = some u ∧
        N_SHOTS[(24 : Int).toNat]? = some v ∧ u < v) ∧
      (∃ u v : ℚ, FIRST_DELAY[(3 : Int).toNat]? = some u ∧
        FIRST_DELAY[(4 : Int).toNat]? = some v ∧ u < v) ∧
      (∃ u v : ℚ, SECOND_DELAY[(3 : Int).toNat]? = some u ∧
        SECOND_DELAY[(4 : Int).toNat]? = some v ∧ u < v) ∧
      N_FIRST_DELAY = 5 ∧ N_SECOND_DELAY = 5) :=
  ⟨by decide, by decide, by decide, by decide, by decide, by decide, by decide,
   tables_strictly_increasing 0 24 3 4 (by decide) (by decide) (by decide) (by decide)
     (by decide) (by decide) (by decide)⟩

end Stacker
